import Mathlib

/-!
Shallow embedding of the feeless-node blockchain core (src/src/blockchain.ts and
the mempool admission paths of src/src/p2pnet.ts), together with theorems that
settle the frozen claims about the natural-language specification.

Modelling conventions:
* JavaScript numbers that the code constrains to integers (amounts, nonces,
  timestamps, heights) are embedded as `Int` (heights as `Nat`); the
  `Number.isInteger` guards of the source hold by construction.
* JavaScript `Map` objects are embedded as association lists with JS `Map`
  semantics (`set` updates in place or appends, `get` returns the first
  binding, `delete` removes the binding).
* Optional fields (`token`, `unlock`, `mint`, `miningReward`) are `Option`;
  JavaScript truthiness of such fields (`tx.token ? … : …`) is `optStrTruthy`
  / `optIntTruthy` (absent, the empty string and the number 0 are falsy).
* The externally supplied pure functions of the `feeless-utils` package
  (argon2 hashing, secp256k1 signature verification, `getDiff`,
  `calculateMintFee`, the rounded FLSS reward, `DEV_WALLET`, `BLOCK_TIME`,
  `TAIL`) and the ambient clock `Date.now()` are fields of an `Env` record
  and are universally quantified in the theorems.
* `BigInt("0x" ++ s)` is the opaque field `Env.hexVal` (the source only ever
  applies it to the hex strings produced by the system).
-/

/-- The `mint` payload carried by a minting transaction:
`{ token, airdrop, miningReward? }`. -/
structure Mint where
  token : String
  airdrop : Int
  miningReward : Option Int
deriving DecidableEq, Repr

/-- A transaction (src/src/blockchain.ts, `Transaction` of feeless-utils). -/
structure Transaction where
  sender : String
  receiver : String
  amount : Int
  signature : String
  nonce : Int
  timestamp : Int
  token : Option String
  unlock : Option Int
  mint : Option Mint
deriving DecidableEq, Repr

/-- A block (src/src/blockchain.ts, `Block` of feeless-utils). -/
structure Block where
  timestamp : Int
  transactions : List Transaction
  prev_hash : String
  nonce : Int
  signature : String
  proposer : String
  hash : String
  diff : String
deriving DecidableEq, Repr

/-- Value stored in the mint registry: `{ miningReward, airdrop }`. -/
structure TokenInfo where
  miningReward : Int
  airdrop : Int
deriving DecidableEq, Repr

/-- An entry of `lockedBalances`:
`{ amount, unlock, addr, token? }` (src/src/blockchain.ts lines 33-38). -/
structure LockedEntry where
  amount : Int
  unlock : Int
  addr : String
  token : Option String
deriving DecidableEq, Repr

/-- The mutable state of the `Blockchain` class.  The durable block store
(one JSON file per height in `this.folder`) is embedded as the list `disk`,
indexed by height. -/
structure ChainState where
  mempool : List Transaction
  mintedTokens : List (String × TokenInfo)
  height : Nat
  lastBlock : String
  usedSignatures : List String
  lastNonces : List (String × Int)
  balances : List (String × Int)
  lockedBalances : List LockedEntry
  disk : List Block
deriving DecidableEq, Repr

/-- The externally supplied pure functions and ambient values used by the
blockchain core (see module docstring). -/
structure Env where
  /-- `ec.keyFromPublic(tx.sender).verify(SHA256(canonical tx), tx.signature)`. -/
  verifyTxSig : Transaction → Bool
  /-- `ec.keyFromPublic(block.proposer).verify(SHA256(canonical block), block.signature)`. -/
  verifyBlockSig : Block → Bool
  /-- `(await hashArgon(canonical block)).toString(16)`. -/
  hashArgonHex : Block → String
  /-- `getDiff(tail)` of feeless-utils, as the big integer target. -/
  getDiff : List Block → Int
  /-- `BigInt("0x" ++ s)`: the hex string interpreted as a big-endian integer. -/
  hexVal : String → Int
  /-- The constant `DEV_WALLET`. -/
  devWallet : String
  /-- `Math.round(calculateReward(height) * (1 - DEV_FEE))`. -/
  flssReward : Nat → Int
  /-- `calculateMintFee(height, mintedTokens.size)`. -/
  mintFee : Nat → Nat → Int
  /-- The constant `BLOCK_TIME`. -/
  blockTime : Int
  /-- The constant `TAIL`. -/
  tailLen : Nat
  /-- `Date.now()` at the moment of the call being modelled. -/
  now : Int
  /-- `Math.round(Math.random() * 1e6)` drawn for a synthesized airdrop. -/
  randNonce : Int

/-- JS truthiness of an optional string field (absent and `""` are falsy). -/
def optStrTruthy : Option String → Bool
  | none => false
  | some s => s ≠ ""

/-- JS truthiness of an optional numeric field (absent and `0` are falsy). -/
def optIntTruthy : Option Int → Bool
  | none => false
  | some u => u ≠ 0

/-- JS `Map.get`: the value bound to `k`, if any. -/
def mapGet {α : Type} : List (String × α) → String → Option α
  | [], _ => none
  | (k', v) :: rest, k => if k' = k then some v else mapGet rest k

/-- JS `Map.has`. -/
def mapHas {α : Type} (m : List (String × α)) (k : String) : Bool :=
  (mapGet m k).isSome

/-- JS `Map.set`: update in place, else append. -/
def mapSet {α : Type} : List (String × α) → String → α → List (String × α)
  | [], k, v => [(k, v)]
  | (k', v') :: rest, k, v =>
    if k' = k then (k, v) :: rest else (k', v') :: mapSet rest k v

/-- JS `Map.delete`. -/
def mapDelete {α : Type} : List (String × α) → String → List (String × α)
  | [], _ => []
  | (k', v') :: rest, k =>
    if k' = k then rest else (k', v') :: mapDelete rest k

/-- `toLowerCase()` as a structurally recursive map over the characters
(the relevant strings are ASCII token names). -/
def lowerStr (s : String) : String := ⟨s.data.map Char.toLower⟩

/-- `toUpperCase()` as a structurally recursive map over the characters. -/
def upperStr (s : String) : String := ⟨s.data.map Char.toUpper⟩

/-- The balance-map key `addr + (token ? "." + token : "")` used by
`addBlock` and by the `set` calls (no case change). -/
def balKey (addr : String) (token : Option String) : String :=
  addr ++ (if optStrTruthy token then "." ++ token.getD "" else "")

/-- The balance-map key `addr + (token ? "." + token.toUpperCase() : "")`
used by the read in `calculateBalance` (line 153-154). -/
def balKeyUpper (addr : String) (token : Option String) : String :=
  addr ++ (if optStrTruthy token then "." ++ upperStr (token.getD "") else "")

/-- The mempool part of `calculateBalance` (lines 139-151), scanned only when
`includeMempool` is set. -/
def mempoolDelta (env : Env) (st : ChainState) (addr : String)
    (token : Option String) : Int :=
  st.mempool.foldl
    (fun bal tx =>
      if tx.signature ∈ st.usedSignatures then bal
      else if optStrTruthy token || optStrTruthy tx.token then
        bal + (if tx.receiver = addr ∧ tx.token = token then tx.amount else 0)
            - (if tx.sender = addr ∧ tx.token = token then tx.amount else 0)
      else
        bal + (if tx.receiver = addr ∧
                  (¬ optIntTruthy tx.unlock ∨ tx.unlock.getD 0 < env.now)
               then tx.amount else 0)
            - (if tx.sender = addr then tx.amount else 0))
    0

/-- `calculateBalance(addr, includeMempool, token)` (lines 132-156). -/
def calculateBalance (env : Env) (st : ChainState) (addr : String)
    (includeMempool : Bool) (token : Option String) : Int :=
  (if includeMempool then mempoolDelta env st addr token else 0) +
    (mapGet st.balances (balKeyUpper addr token)).getD 0

/-- `calculateLocked(addr, token)` (lines 158-164).  The source's loop body is
the expression statement `bal + lb.amount`, whose value is discarded, so the
accumulator is never updated. -/
def calculateLocked (st : ChainState) (addr : String)
    (token : Option String) : Int :=
  st.lockedBalances.foldl
    (fun bal lb =>
      if lb.addr = addr ∧ lb.token = token then
        let _discarded := bal + lb.amount
        bal
      else bal)
    0

/-- Modelled from the spec: the reference behaviour of the locked-balance
accumulator, which sums `lb.amount` into `bal` (`bal += lb.amount`) over the
entries with matching address and token (spec §4.2 `lockedBalance` and design
note §9.1). -/
def calculateLockedRef (st : ChainState) (addr : String)
    (token : Option String) : Int :=
  st.lockedBalances.foldl
    (fun bal lb =>
      if lb.addr = addr ∧ lb.token = token then bal + lb.amount else bal)
    0

/-- The epoch-millisecond constant `1754043286413` gating signature, nonce and
spent-signature validation of minting transactions (line 295). -/
def mintSigCutoff : Int := 1754043286413

/-- `tx.sender === "mint" && tx.signature === "mint" && tx.token` branch of
`checkTX`, case "token not yet in the registry" (lines 232-267): scan the
mempool for the first pending mint of this token at the expected fee. -/
def mintSenderScan (env : Env) (st : ChainState) (tx : Transaction) :
    List Transaction → Bool
  | [] => false
  | p :: rest =>
    match p.mint with
    | some m =>
      if p.receiver = env.devWallet ∧
         p.amount = env.mintFee st.height st.mintedTokens.length ∧
         m.token = tx.token.getD "" then
        if optIntTruthy tx.unlock then false
        else if tx.amount ≠ m.airdrop then false
        else if mapHas st.mintedTokens (tx.token.getD "") then false
        else true
      else mintSenderScan env st tx rest
    | none => mintSenderScan env st tx rest

/-- The airdrop ("mint"-sender) branch of `checkTX` (lines 229-279). -/
def checkTXmintSender (env : Env) (st : ChainState) (tx : Transaction) : Bool :=
  match mapGet st.mintedTokens (tx.token.getD "") with
  | none => mintSenderScan env st tx st.mempool
  | some ti => if tx.amount ≠ ti.airdrop then false else true

/-- `/^[A-Z]+$/.test(token)` (line 344). -/
def isUpperAlpha (s : String) : Bool :=
  s.length > 0 && s.data.all (fun c => 'A' ≤ c && c ≤ 'Z')

/-- "Token already exists" test of the minting branch (lines 352-376): inside
block validation only the registry is consulted, otherwise the registry and
the pending mints in the mempool. -/
def mintTokenTaken (st : ChainState) (isBlockValidation : Bool)
    (token : String) : Bool :=
  if isBlockValidation then mapHas st.mintedTokens token
  else if mapHas st.mintedTokens token then true
  else st.mempool.any (fun p =>
    match p.mint with
    | some pm => pm.token = token
    | none => false)

/-- Tail of the minting branch of `checkTX` after the timestamp-gated
signature block (lines 323-397): fee balance, token-name rules, duplicate
mint, mining-reward and airdrop validity. -/
def checkTXmintRest (env : Env) (st : ChainState) (tx : Transaction)
    (m : Mint) (isBlockValidation : Bool) : Bool :=
  if calculateBalance env st tx.sender false none <
      env.mintFee st.height st.mintedTokens.length then false
  else if lowerStr m.token = "flss" then false
  else if m.token = "" ∨ 20 ≤ m.token.length then false
  else if ¬ isUpperAlpha m.token then false
  else if mintTokenTaken st isBlockValidation m.token then false
  else if (match m.miningReward with
      | some r => decide (r ≤ 0)
      | none => false) then false
  else if m.airdrop < 0 then false
  else true

/-- The minting branch of `checkTX` (`tx.mint` present, lines 282-397).
Signature, nonce-map and spent-signature validation run only when
`tx.timestamp > 1754043286413`; note that the nonce check consults the
`lastNonces` map keyed by the *stringified nonce* (line 296). -/
def checkTXmint (env : Env) (st : ChainState) (tx : Transaction) (m : Mint)
    (isBlockValidation : Bool) : Bool :=
  if tx.receiver ≠ env.devWallet ∨
     tx.amount ≠ env.mintFee st.height st.mintedTokens.length ∨
     optIntTruthy tx.unlock then false
  else if mintSigCutoff < tx.timestamp then
    if mapHas st.lastNonces (toString tx.nonce) then false
    else if ¬ env.verifyTxSig tx then false
    else if tx.signature ∈ st.usedSignatures then false
    else checkTXmintRest env st tx m isBlockValidation
  else checkTXmintRest env st tx m isBlockValidation

/-- Normal-transaction validation of `checkTX` (non-reserved sender, lines
401-438): nonce above the high-water mark, signature, balance, spent cache. -/
def checkTXnormal (env : Env) (st : ChainState) (tx : Transaction)
    (includeMempoolBalance : Bool) : Bool :=
  if tx.nonce ≤ (mapGet st.lastNonces tx.sender).getD 0 then false
  else if ¬ env.verifyTxSig tx then false
  else if calculateBalance env st tx.sender includeMempoolBalance tx.token <
      tx.amount then false
  else if tx.signature ∈ st.usedSignatures then false
  else true

/-- `checkTX(tx, includeMempoolBalance, isBlockValidation)` (lines 202-440).
The `Number.isInteger` guards hold by construction of the `Int` model. -/
def checkTX (env : Env) (st : ChainState) (tx : Transaction)
    (includeMempoolBalance : Bool) (isBlockValidation : Bool) : Bool :=
  if tx.amount ≤ 0 then false
  else if optIntTruthy tx.unlock ∧ tx.unlock.getD 0 ≤ tx.timestamp then false
  else if tx.sender = "mint" ∧ tx.signature = "mint" ∧ optStrTruthy tx.token then
    checkTXmintSender env st tx
  else
    match tx.mint with
    | some m => checkTXmint env st tx m isBlockValidation
    | none =>
      if tx.sender ≠ "network" ∧ tx.sender ≠ "mint" then
        checkTXnormal env st tx includeMempoolBalance
      else true

/-- Result record of `validateBlockRewards`. -/
structure RewardCheck where
  isValid : Bool
  hasDevFee : Bool
  hasReward : Bool
deriving DecidableEq, Repr

/-- First pass of `validateBlockRewards` (lines 456-469): collect the mint
transactions of the block paying the expected fee to the dev wallet. -/
def collectPendingMints (env : Env) (st : ChainState)
    (txs : List Transaction) : List (String × TokenInfo) :=
  txs.foldl
    (fun acc tx =>
      match tx.mint with
      | some m =>
        if tx.receiver = env.devWallet ∧
           tx.amount = env.mintFee st.height st.mintedTokens.length then
          mapSet acc m.token ⟨m.miningReward.getD 0, m.airdrop⟩
        else acc
      | none => acc)
    []

/-- Second pass of `validateBlockRewards` (lines 472-588).  `front` is the
prefix of transactions already processed, used by the in-block duplicate
airdrop scan, which in the source stops at the current transaction by object
identity (lines 572-585). -/
def vbrLoop (env : Env) (st : ChainState) (pm : List (String × TokenInfo))
    (front : List Transaction) (txs : List Transaction)
    (hasDevFee hasReward tokenRewardTx : Bool) : RewardCheck :=
  match txs with
  | [] => ⟨true, hasDevFee, hasReward⟩
  | tx :: rest =>
    if tx.sender = "network" ∧ tx.receiver = env.devWallet ∧
        ¬ optStrTruthy tx.token then
      if optIntTruthy tx.unlock then ⟨false, hasDevFee, hasReward⟩
      else if hasDevFee then ⟨false, hasDevFee, hasReward⟩
      else vbrLoop env st pm (front ++ [tx]) rest true hasReward tokenRewardTx
    else if tx.sender = "network" ∧ tx.receiver ≠ env.devWallet then
      if optIntTruthy tx.unlock then ⟨false, hasDevFee, hasReward⟩
      else if tokenRewardTx then ⟨false, hasDevFee, hasReward⟩
      else if optStrTruthy tx.token then
        match (mapGet st.mintedTokens (tx.token.getD "")).orElse
            (fun _ => mapGet pm (tx.token.getD "")) with
        | none => ⟨false, hasDevFee, hasReward⟩
        | some ti =>
          if ti.miningReward = 0 then ⟨false, hasDevFee, hasReward⟩
          else if ti.miningReward ≠ tx.amount then ⟨false, hasDevFee, hasReward⟩
          else vbrLoop env st pm (front ++ [tx]) rest hasDevFee true true
      else
        if tx.amount ≠ env.flssReward st.height then ⟨false, hasDevFee, hasReward⟩
        else vbrLoop env st pm (front ++ [tx]) rest hasDevFee true true
    else if tx.sender = "mint" ∧ optStrTruthy tx.token then
      if optIntTruthy tx.unlock then ⟨false, hasDevFee, hasReward⟩
      else
        match (mapGet st.mintedTokens (tx.token.getD "")).orElse
            (fun _ => mapGet pm (tx.token.getD "")) with
        | none => ⟨false, hasDevFee, hasReward⟩
        | some ti =>
          if tx.amount ≠ ti.airdrop then ⟨false, hasDevFee, hasReward⟩
          else if front.any (fun btx =>
              btx.sender = "mint" ∧ btx.signature = "mint" ∧
              btx.token = tx.token ∧ btx.amount = ti.airdrop) then
            ⟨false, hasDevFee, hasReward⟩
          else vbrLoop env st pm (front ++ [tx]) rest hasDevFee hasReward
            tokenRewardTx
    else vbrLoop env st pm (front ++ [tx]) rest hasDevFee hasReward
      tokenRewardTx

/-- `validateBlockRewards(block)` (lines 442-591).  Note that the dev-fee
branch (lines 474-491) checks only the absence of `unlock` and uniqueness —
it never compares the dev-fee amount with anything. -/
def validateBlockRewards (env : Env) (st : ChainState) (block : Block) :
    RewardCheck :=
  vbrLoop env st (collectPendingMints env st block.transactions) []
    block.transactions false false false

/-- Duplicate-sender scan of `checkBlock` (lines 611-626): `true` iff two
transactions of the block share a non-reserved sender. -/
def dupSenderScan : List Transaction → List String → Bool
  | [], _ => false
  | tx :: rest, seen =>
    if tx.sender = "network" then dupSenderScan rest seen
    else if tx.sender = "mint" then dupSenderScan rest seen
    else if tx.sender ∈ seen then true
    else dupSenderScan rest (tx.sender :: seen)

/-- Stand-in for a block the store does not hold.  The source `getBlock`
throws on a missing file; the total model returns this block instead.  No
theorem depends on it: the tail is only ever passed to the opaque
`Env.getDiff`. -/
def defaultBlock : Block := ⟨0, [], "", 0, "", "", "", ""⟩

/-- `getBlock(h)` (lines 879-890), reading the block store. -/
def getBlock (st : ChainState) (h : Nat) : Block :=
  (st.disk.get? h).getD defaultBlock

/-- `getSlice(start, end)` (lines 871-877). -/
def getSlice (st : ChainState) (start stop : Nat) : List Block :=
  (List.range (stop - start)).map (fun i => getBlock st (start + i))

/-- `getTail()` (lines 867-869): the last `TAIL` blocks
(`Math.max(height - TAIL, 0)` is `Nat` subtraction). -/
def getTail (env : Env) (st : ChainState) : List Block :=
  getSlice st (st.height - env.tailLen) st.height

/-- The mempool-match re-check inside the per-transaction loop of
`checkBlock` (lines 724-748): a pending transaction agreeing with `tx` on
signature, amount, nonce, receiver, sender and token, carrying a mint at the
expected fee to the dev wallet, whose token is already minted, fails the
block. -/
def mintRecheckFails (env : Env) (st : ChainState) (tx : Transaction) : Bool :=
  st.mempool.any (fun p =>
    p.signature = tx.signature && p.amount = tx.amount && p.nonce = tx.nonce &&
    p.receiver = tx.receiver && p.sender = tx.sender && p.token = tx.token &&
    (match p.mint with
     | some m =>
       p.receiver = env.devWallet &&
       p.amount = env.mintFee st.height st.mintedTokens.length &&
       mapHas st.mintedTokens m.token
     | none => false))

/-- The per-transaction loop of `checkBlock` (lines 723-760). -/
def checkBlockTxs (env : Env) (st : ChainState) : List Transaction → Bool
  | [] => true
  | tx :: rest =>
    if mintRecheckFails env st tx then false
    else if ¬ checkTX env st tx false true then false
    else checkBlockTxs env st rest

/-- `checkBlock(block, isBackchecking, skipHashing)` (lines 593-763).  The
75 % rule `transactions.length - 2 < 0.75 * length` is compared exactly over
the integers after multiplying both sides by 4. -/
def checkBlock (env : Env) (st : ChainState) (block : Block)
    (isBackchecking skipHashing : Bool) : Bool :=
  if env.getDiff (getTail env st) < env.hexVal block.hash then false
  else if env.getDiff (getTail env st) ≠ env.hexVal block.diff then false
  else if dupSenderScan block.transactions [] then false
  else
    let mempoolLen :=
      (st.mempool.filter (fun tx => tx.timestamp ≤ block.timestamp)).length
    if env.now + 10000 < block.timestamp then false
    else if ¬ isBackchecking ∧ block.timestamp < env.now - env.blockTime then
      false
    else if ¬ isBackchecking ∧
        4 * ((block.transactions.length : Int) - 2) < 3 * (mempoolLen : Int) then
      false
    else if ¬ skipHashing ∧ env.hashArgonHex block ≠ block.hash then false
    else if 0 < st.height ∧ block.prev_hash ≠ st.lastBlock then false
    else if ¬ env.verifyBlockSig block then false
    else
      let rc := validateBlockRewards env st block
      if ¬ rc.isValid then false
      else if ¬ rc.hasDevFee then false
      else if ¬ rc.hasReward then false
      else checkBlockTxs env st block.transactions

/-- One iteration of the matured-lock release loop at the top of `addBlock`
(lines 766-775): credit the holder with the current balance plus the locked
amount and filter the entry out of `lockedBalances`. -/
def releaseStep (env : Env) (ts : Int) (st : ChainState) (lb : LockedEntry) :
    ChainState :=
  if lb.unlock ≤ ts then
    let receiver := calculateBalance env st lb.addr false lb.token
    { st with
      balances := mapSet st.balances (balKey lb.addr lb.token)
        (receiver + lb.amount)
      lockedBalances := st.lockedBalances.filter (fun l => l ≠ lb) }
  else st

/-- The matured-lock release loop of `addBlock`, which runs before
`checkBlock` and therefore regardless of the block being accepted.  The
source iterates over the array `this.lockedBalances` held at loop entry while
reassigning the field; the fold over the entry list is equivalent. -/
def releaseMatured (env : Env) (st : ChainState) (ts : Int) : ChainState :=
  st.lockedBalances.foldl (releaseStep env ts) st

/-- Registry update and balance application of one transaction inside the
accepted-block loop of `addBlock` (lines 779-812).  Both balances are read
before either write, as in the source. -/
def applyTx (env : Env) (blockTs : Int) (st : ChainState)
    (tx : Transaction) : ChainState :=
  let st1 :=
    match tx.mint with
    | some m =>
      if tx.receiver = env.devWallet then
        { st with mintedTokens :=
            mapSet st.mintedTokens m.token ⟨m.miningReward.getD 0, m.airdrop⟩ }
      else st
    | none => st
  let senderKey := balKey tx.sender tx.token
  let receiverKey := balKey tx.receiver tx.token
  let senderBal := (mapGet st1.balances senderKey).getD 0
  let receiverBal := (mapGet st1.balances receiverKey).getD 0
  let bals1 := mapSet st1.balances senderKey (senderBal - tx.amount)
  let bals2 := if senderBal - tx.amount = 0 then mapDelete bals1 senderKey
    else bals1
  if optIntTruthy tx.unlock ∧ blockTs < tx.unlock.getD 0 then
    { st1 with
      balances := bals2
      lockedBalances := st1.lockedBalances ++
        [⟨tx.amount, tx.unlock.getD 0, tx.receiver, tx.token⟩] }
  else
    { st1 with balances := mapSet bals2 receiverKey (receiverBal + tx.amount) }

/-- `MAX_USED_SIGNATURES` (line 39). -/
def MAX_USED_SIGNATURES : Nat := 10000

/-- The commit path of `addBlock` after a successful `checkBlock` (lines
778-840): apply every transaction, bump height, set `lastBlock`, append the
block's signatures to the capped cache (`slice(-MAX)` keeps the newest), and
remove from the mempool every pending transaction matching a block
transaction on receiver, sender, token and signature. -/
def applyBlock (env : Env) (st : ChainState) (block : Block) : ChainState :=
  let st1 := block.transactions.foldl (applyTx env block.timestamp) st
  let st2 := { st1 with height := st1.height + 1, lastBlock := block.hash }
  let sigs := st2.usedSignatures ++ block.transactions.map Transaction.signature
  let sigs2 := if MAX_USED_SIGNATURES < sigs.length then
      sigs.drop (sigs.length - MAX_USED_SIGNATURES)
    else sigs
  { st2 with
    usedSignatures := sigs2
    mempool := st2.mempool.filter (fun p =>
      ¬ block.transactions.any (fun tx =>
        tx.receiver = p.receiver ∧ tx.sender = p.sender ∧
        tx.token = p.token ∧ tx.signature = p.signature)) }

/-- `addBlock(block, isBackchecking, skipHashing)` (lines 765-865), returning
the boolean result of the source together with the state it leaves behind.
Matured locks are released before `checkBlock` runs. -/
def addBlock (env : Env) (st : ChainState) (block : Block)
    (isBackchecking skipHashing : Bool) : Bool × ChainState :=
  let st1 := releaseMatured env st block.timestamp
  if checkBlock env st1 block isBackchecking skipHashing then
    (true, applyBlock env st1 block)
  else (false, st1)

/-- The airdrop transaction synthesized by `pushTX` for a mint with a
positive airdrop (lines 181-189). -/
def mkAirdropTx (env : Env) (tx : Transaction) (m : Mint) : Transaction :=
  { sender := "mint", receiver := tx.sender, amount := m.airdrop,
    signature := "mint", nonce := env.randNonce, timestamp := env.now,
    token := some m.token, unlock := none, mint := none }

/-- `pushTX(tx)` (lines 166-200): reserved senders are rejected, the
validator must approve, a mint of an already-minted token is rejected, and a
mint with a positive airdrop additionally enqueues the synthesized airdrop
transaction before the mint itself. -/
def pushTX (env : Env) (st : ChainState) (tx : Transaction) :
    Bool × ChainState :=
  if tx.sender = "network" ∨ tx.sender = "mint" then (false, st)
  else if checkTX env st tx false false then
    match tx.mint with
    | some m =>
      if tx.receiver = env.devWallet then
        if mapHas st.mintedTokens m.token then (false, st)
        else if 0 < m.airdrop then
          (true, { st with mempool := st.mempool ++ [mkAirdropTx env tx m, tx] })
        else (true, { st with mempool := st.mempool ++ [tx] })
      else (true, { st with mempool := st.mempool ++ [tx] })
    | none => (true, { st with mempool := st.mempool ++ [tx] })
  else (false, st)

/-- `incomingTX(tx)` of src/src/p2pnet.ts (lines 629-668): drop transactions
older than 60 s or more than 5 s in the future, drop a transaction matching a
pending one on *both* sender and signature, then delegate to `pushTX`. -/
def incomingTX (env : Env) (st : ChainState) (tx : Transaction) :
    Bool × ChainState :=
  if 60000 < env.now - tx.timestamp ∨ env.now - tx.timestamp < -5000 then
    (false, st)
  else if st.mempool.any (fun p =>
      tx.sender = p.sender ∧ p.signature = tx.signature) then (false, st)
  else pushTX env st tx

/-! ### Concrete fixtures

A concrete instantiation of the external environment and small concrete
states and blocks, used by the counterexamples, the code-bug evaluations and
the witnesses.  `hashArgonHex` is instantiated so that every block's recorded
hash matches the recomputation, and all signatures verify. -/

/-- Concrete environment: all signatures verify, the argon2 recomputation
returns the recorded hash, the difficulty target and every parsed hex value
are 0, the dev wallet is `"DEV"`, the FLSS reward is 10, the mint fee is 5,
and the clock reads 1000000. -/
def env0 : Env :=
  { verifyTxSig := fun _ => true
    verifyBlockSig := fun _ => true
    hashArgonHex := fun b => b.hash
    getDiff := fun _ => 0
    hexVal := fun _ => 0
    devWallet := "DEV"
    flssReward := fun _ => 10
    mintFee := fun _ _ => 5
    blockTime := 600000
    tailLen := 100
    now := 1000000
    randNonce := 1 }

/-- A dev-fee-shaped transaction: `network → DEV`, native, of the given
amount and signature. -/
def mkDevTx (amount : Int) (sig : String) : Transaction :=
  { sender := "network", receiver := "DEV", amount := amount,
    signature := sig, nonce := 0, timestamp := 1000000,
    token := none, unlock := none, mint := none }

/-- A reward-shaped transaction: `network → "M"`, native, of the given
amount and signature. -/
def mkRewardTx (amount : Int) (sig : String) : Transaction :=
  { sender := "network", receiver := "M", amount := amount,
    signature := sig, nonce := 0, timestamp := 1000000,
    token := none, unlock := none, mint := none }

/-- A plain transfer from a non-reserved sender. -/
def mkTransferTx (sender receiver : String) (amount nonce : Int)
    (sig : String) : Transaction :=
  { sender := sender, receiver := receiver, amount := amount,
    signature := sig, nonce := nonce, timestamp := 1000000,
    token := none, unlock := none, mint := none }

/-- Base state at height 1 with last block `"h0"` and an empty index. -/
def baseState : ChainState :=
  { mempool := [], mintedTokens := [], height := 1, lastBlock := "h0",
    usedSignatures := [], lastNonces := [], balances := [],
    lockedBalances := [], disk := [] }

/-- C1 fixture: one matured locked balance (unlock 100 ≤ any block
timestamp used here) for address `"A"`. -/
def stC1 : ChainState :=
  { baseState with lockedBalances := [⟨5, 100, "A", none⟩] }

/-- C1 fixture: an empty block; `checkBlock` rejects it (no dev-fee
transaction, and the 75 % rule fails on an empty transaction list). -/
def blkC1 : Block :=
  { timestamp := 1000000, transactions := [], prev_hash := "h0",
    nonce := 0, signature := "bs", proposer := "P", hash := "bh",
    diff := "bd" }

/-- C2 fixture: sender `"S"` holds 100 native points. -/
def stC2 : ChainState := { baseState with balances := [("S", 100)] }

/-- C2 fixture: first transfer from `"S"`, nonce 1. -/
def txN1 : Transaction := mkTransferTx "S" "R" 1 1 "ssig1"

/-- C2 fixture: second transfer from `"S"`, again nonce 1, different
signature. -/
def txN2 : Transaction := mkTransferTx "S" "R" 1 1 "ssig2"

/-- C2 fixture: first block, carrying `txN1`. -/
def blkN1 : Block :=
  { timestamp := 1000000,
    transactions := [mkDevTx 7 "dsig1", mkRewardTx 10 "rsig1", txN1],
    prev_hash := "h0", nonce := 0, signature := "bs1", proposer := "P",
    hash := "b1", diff := "d1" }

/-- C2 fixture: second block, carrying `txN2` on top of `blkN1`. -/
def blkN2 : Block :=
  { timestamp := 1000000,
    transactions := [mkDevTx 7 "dsig2", mkRewardTx 10 "rsig2", txN2],
    prev_hash := "b1", nonce := 0, signature := "bs2", proposer := "P",
    hash := "b2", diff := "d2" }

/-- C3 fixture: dev-fee transaction with amount 1. -/
def devTxLow : Transaction := mkDevTx 1 "dsigL"

/-- C3 fixture: dev-fee transaction with amount 999999. -/
def devTxHigh : Transaction := mkDevTx 999999 "dsigH"

/-- C3 fixture: block whose dev-fee transaction carries amount 1. -/
def blkD1 : Block :=
  { timestamp := 1000000, transactions := [devTxLow, mkRewardTx 10 "rsigL"],
    prev_hash := "h0", nonce := 0, signature := "bsL", proposer := "P",
    hash := "bL", diff := "dL" }

/-- C3 fixture: the same block except the dev-fee amount is 999999. -/
def blkD2 : Block :=
  { timestamp := 1000000, transactions := [devTxHigh, mkRewardTx 10 "rsigH"],
    prev_hash := "h0", nonce := 0, signature := "bsH", proposer := "P",
    hash := "bH", diff := "dH" }

/-- C4 fixture: sender `"S"` holds exactly the 5-point mint fee, natively. -/
def stC4 : ChainState := { baseState with balances := [("S", 5)] }

/-- C4 fixture: a minting transaction for new token `"BAR"` that also
carries a `token` field `"FOO"`; its timestamp predates the signature
cutoff. -/
def txMintFoo : Transaction :=
  { sender := "S", receiver := "DEV", amount := 5, signature := "msig",
    nonce := 1, timestamp := 1000, token := some "FOO", unlock := none,
    mint := some ⟨"BAR", 0, none⟩ }

/-- C4 fixture: block carrying the rewards and `txMintFoo`. -/
def blkM : Block :=
  { timestamp := 1000000,
    transactions := [mkDevTx 7 "dsigM", mkRewardTx 10 "rsigM", txMintFoo],
    prev_hash := "h0", nonce := 0, signature := "bsM", proposer := "P",
    hash := "bM", diff := "dM" }

/-- C5 fixture: dev-fee transaction with signature `"netsig"`, applied in two
successive blocks. -/
def devTxReused : Transaction := mkDevTx 7 "netsig"

/-- C5 fixture: first block applying `devTxReused`. -/
def blkC5 : Block :=
  { timestamp := 1000000, transactions := [devTxReused, mkRewardTx 10 "rsig5"],
    prev_hash := "h0", nonce := 0, signature := "bs5", proposer := "P",
    hash := "b5", diff := "d5" }

/-- C5 fixture: second block applying `devTxReused` again, while its
signature is still cached. -/
def blkC5b : Block :=
  { timestamp := 1000000, transactions := [devTxReused, mkRewardTx 10 "rsig6"],
    prev_hash := "b5", nonce := 0, signature := "bs6", proposer := "P",
    hash := "b6", diff := "d6" }

/-- C6 fixture: a transaction from `"S"` already pending in the mempool. -/
def pendingS : Transaction := mkTransferTx "S" "R" 1 1 "s1"

/-- C6 fixture: state with `pendingS` pending and 100 points for `"S"`. -/
def stC6 : ChainState :=
  { baseState with mempool := [pendingS], balances := [("S", 100)] }

/-- C6 fixture: a second transaction from the same sender `"S"` with a
different signature. -/
def txC6 : Transaction := mkTransferTx "S" "R" 1 2 "s2"

/-- C7 fixture: 100 points for `"S"`; the mempool is empty. -/
def stC7 : ChainState := { baseState with balances := [("S", 100)] }

/-- C7 fixture: a valid transfer from `"S"` that is in no mempool. -/
def txQ : Transaction := mkTransferTx "S" "R" 1 1 "qsig"

/-- C7 fixture: block carrying the rewards and `txQ`. -/
def blkQ : Block :=
  { timestamp := 1000000,
    transactions := [mkDevTx 7 "dsigQ", mkRewardTx 10 "rsigQ", txQ],
    prev_hash := "h0", nonce := 0, signature := "bsQ", proposer := "P",
    hash := "bQ", diff := "dQ" }

/-- C8 fixture: a block with only the two reward transactions, accepted by
`checkBlock` under `env0`. -/
def blk8 : Block :=
  { timestamp := 1000000, transactions := [mkDevTx 7 "dsig8", mkRewardTx 10 "rsig8"],
    prev_hash := "h0", nonce := 0, signature := "bs8", proposer := "P",
    hash := "b8", diff := "d8" }

/-- C9 fixture: one locked entry of amount 5 for `"A"`. -/
def stL : ChainState :=
  { baseState with lockedBalances := [⟨5, 10, "A", none⟩] }

/-- C10 fixture: a minting transaction whose timestamp is at the signature
cutoff (so the gated checks are skipped). -/
def txOldMint : Transaction :=
  { sender := "S", receiver := "DEV", amount := 5, signature := "osig",
    nonce := 3, timestamp := 1754043286413, token := none, unlock := none,
    mint := some ⟨"QUU", 2, some 4⟩ }

/-- C10 fixture: state holding the old mint's signature in the spent cache
and its stringified nonce in the nonce map, with 5 points for `"S"`. -/
def stC10 : ChainState :=
  { baseState with
    usedSignatures := ["osig"]
    lastNonces := [("3", 9)]
    balances := [("S", 5)] }

/-! ### Claim C1 — state on a failed `addBlock` -/

/-- Claim C1 counterexample: `addBlock` rejects the block (`false`), yet the
state is changed — the matured locked balance of `"A"` has been released
into the spendable balance, because the release loop runs before
`checkBlock`. -/
theorem c1_counterexample :
    (addBlock env0 stC1 blkC1 false false).1 = false ∧
    (addBlock env0 stC1 blkC1 false false).2.lockedBalances ≠
      stC1.lockedBalances ∧
    (addBlock env0 stC1 blkC1 false false).2.balances ≠ stC1.balances := by
  decide

/-! ### Claim C2 — nonce monotonicity -/

/-- Claim C2: the code never writes `lastNonces`, so two blocks carrying
transactions from the same sender `"S"` with the *same* nonce 1 are both
accepted by `addBlock`, and the nonce map is still empty afterwards:
accepted nonces are not strictly increasing across blocks. -/
theorem c2_nonce_not_monotone :
    txN1.sender = "S" ∧ txN1.nonce = 1 ∧ txN1 ∈ blkN1.transactions ∧
    txN2.sender = "S" ∧ txN2.nonce = 1 ∧ txN2 ∈ blkN2.transactions ∧
    (addBlock env0 stC2 blkN1 false false).1 = true ∧
    (addBlock env0 (addBlock env0 stC2 blkN1 false false).2 blkN2
      false false).1 = true ∧
    ((addBlock env0 (addBlock env0 stC2 blkN1 false false).2 blkN2
      false false).2).lastNonces = [] := by
  decide

/-! ### Claim C3 — dev-fee amount -/

/-- Claim C3: `validateBlockRewards` never compares the dev-fee amount with
anything, so two otherwise identical blocks whose dev-fee transactions carry
the different amounts 1 and 999999 are both accepted by `checkBlock`; no
fixed expected amount is enforced. -/
theorem c3_devfee_amount_unchecked :
    devTxLow.sender = "network" ∧ devTxLow.receiver = "DEV" ∧
    devTxLow.token = none ∧ devTxLow.amount = 1 ∧
    devTxHigh.amount = 999999 ∧
    devTxLow ∈ blkD1.transactions ∧ devTxHigh ∈ blkD2.transactions ∧
    checkBlock env0 baseState blkD1 false false = true ∧
    checkBlock env0 baseState blkD2 false false = true := by
  decide

/-! ### Claim C4 — non-negative balances -/

/-- Claim C4: a minting transaction from the non-reserved sender `"S"` that
carries a `token` field `"FOO"` passes `checkTX` (the fee is checked against
the *native* balance) but is debited by `addBlock` against the key
`"S.FOO"`, driving that balance to −5: a debit applied by `addBlock` is not
covered by the sender's prior balance. -/
theorem c4_negative_balance :
    txMintFoo.sender = "S" ∧ txMintFoo ∈ blkM.transactions ∧
    mapGet stC4.balances "S.FOO" = none ∧
    (addBlock env0 stC4 blkM true true).1 = true ∧
    mapGet ((addBlock env0 stC4 blkM true true).2).balances "S.FOO" =
      some (-5) := by
  decide

/-! ### Claim C5 — signature uniqueness in the retained window -/

/-- Claim C5 counterexample: the dev-fee transaction `devTxReused` is applied
by `addBlock` in block `blkC5`, its signature `"netsig"` enters the cache,
and the very same signature is applied again by the next `addBlock` of
`blkC5b` — reserved-sender transactions never pass through the
duplicate-signature check, so a signature *is* accepted twice within the
retained window. -/
theorem c5_counterexample :
    devTxReused ∈ blkC5.transactions ∧ devTxReused ∈ blkC5b.transactions ∧
    (addBlock env0 baseState blkC5 false false).1 = true ∧
    devTxReused.signature ∈
      (addBlock env0 baseState blkC5 false false).2.usedSignatures ∧
    (addBlock env0 (addBlock env0 baseState blkC5 false false).2 blkC5b
      false false).1 = true := by
  decide

/-! ### Claim C6 — one pending transaction per sender -/

/-- Claim C6 counterexample: with a transaction from `"S"` already pending,
`incomingTX` accepts a second transaction from `"S"` (different signature)
and the mempool then holds two pending transactions of that sender — the
guard compares sender *and* signature, not sender alone. -/
theorem c6_counterexample :
    pendingS.sender = "S" ∧ txC6.sender = "S" ∧
    pendingS ∈ stC6.mempool ∧
    (incomingTX env0 stC6 txC6).1 = true ∧
    ((incomingTX env0 stC6 txC6).2.mempool.filter
      (fun t => t.sender = "S")).length = 2 := by
  decide

/-! ### Claim C7 — block transactions and the mempool -/

/-- Claim C7 counterexample: `blkQ` contains the valid non-reserved
transaction `txQ` while the mempool is empty, and `checkBlock` accepts the
block anyway — membership of block transactions in the mempool is not
required. -/
theorem c7_counterexample :
    txQ.sender = "S" ∧ txQ ∈ blkQ.transactions ∧ stC7.mempool = [] ∧
    checkBlock env0 stC7 blkQ false false = true := by
  decide

/-! ### Claim C9 — `calculateLocked` -/

/-- Claim C9: the locked-balance accumulator of `calculateLocked` is the
discarded expression statement `bal + lb.amount`, so the function returns 0
for every address and token; the reference behaviour (`calculateLockedRef`)
returns the matching sum, 5 on the fixture. -/
theorem c9_locked_always_zero :
    (∀ (st : ChainState) (addr : String) (token : Option String),
      calculateLocked st addr token = 0) ∧
    calculateLocked stL "A" none = 0 ∧
    calculateLockedRef stL "A" none = 5 := by
  refine ⟨fun st addr token => ?_, by decide, by decide⟩
  unfold calculateLocked
  induction st.lockedBalances with
  | nil => rfl
  | cons lb rest ih =>
    simp only [List.foldl_cons]
    split <;> exact ih

theorem guardChain (c : Prop) [Decidable c] (x : Bool) :
    ((if c then false else x) = true) ↔ (¬ c ∧ x = true) := by
  split <;> simp_all

theorem checkBlock_guards (env : Env) (st : ChainState) (block : Block)
    (ibc skip : Bool) (h : checkBlock env st block ibc skip = true) :
    env.hexVal block.hash ≤ env.getDiff (getTail env st) ∧
    env.hexVal block.diff = env.getDiff (getTail env st) ∧
    checkBlockTxs env st block.transactions = true := by
  unfold checkBlock at h
  simp only [guardChain] at h
  obtain ⟨h1, h2, -, -, -, -, -, -, -, -, -, -, htx⟩ := h
  exact ⟨not_lt.mp h1, not_ne_iff.mp h2 |>.symm, htx⟩

theorem checkBlockTxs_mem (env : Env) (st : ChainState) :
    ∀ (txs : List Transaction), checkBlockTxs env st txs = true →
      ∀ tx ∈ txs, mintRecheckFails env st tx = false ∧
        checkTX env st tx false true = true
  | [], _, tx, htx => absurd htx (List.not_mem_nil tx)
  | t :: rest, h, tx, htx => by
    unfold checkBlockTxs at h
    simp only [guardChain] at h
    obtain ⟨hm, hc, hrest⟩ := h
    rcases List.mem_cons.mp htx with rfl | hmem
    · exact ⟨Bool.not_eq_true _ ▸ by simpa using hm, by simpa using hc⟩
    · exact checkBlockTxs_mem env st rest hrest tx hmem

/-- Claim C7 (amended): `checkBlock` requires every transaction of the block
to pass `checkTX` in block context and the already-minted re-check to pass;
membership of the transaction in the mempool is not required. -/
theorem c7_amended (env : Env) (st : ChainState) (block : Block)
    (ibc skip : Bool) (h : checkBlock env st block ibc skip = true) :
    ∀ tx ∈ block.transactions, checkTX env st tx false true = true ∧
      mintRecheckFails env st tx = false := by
  have htx := (checkBlock_guards env st block ibc skip h).2.2
  intro tx hmem
  have := checkBlockTxs_mem env st block.transactions htx tx hmem
  exact ⟨this.2, this.1⟩

/-- Claim C7 witness: the amended theorem applied to the concrete accepted
block `blkQ` over `stC7` and its transaction `txQ`. -/
theorem c7_witness :
    checkTX env0 stC7 txQ false true = true ∧
    mintRecheckFails env0 stC7 txQ = false :=
  c7_amended env0 stC7 blkQ false false (by decide) txQ (by decide)

/-- Claim C8: every block accepted by `checkBlock` has its hash, parsed as a
big-endian integer, at most the target computed from the tail, and its
declared `diff` field, parsed the same way, equal to that target. -/
theorem c8_diff_invariant (env : Env) (st : ChainState) (block : Block)
    (ibc skip : Bool) (h : checkBlock env st block ibc skip = true) :
    env.hexVal block.hash ≤ env.getDiff (getTail env st) ∧
    env.hexVal block.diff = env.getDiff (getTail env st) :=
  ⟨(checkBlock_guards env st block ibc skip h).1,
   (checkBlock_guards env st block ibc skip h).2.1⟩

/-- Claim C8 witness: the theorem applied to the concrete accepted block
`blk8` over `baseState`. -/
theorem c8_witness :
    env0.hexVal blk8.hash ≤ env0.getDiff (getTail env0 baseState) ∧
    env0.hexVal blk8.diff = env0.getDiff (getTail env0 baseState) :=
  c8_diff_invariant env0 baseState blk8 false false (by decide)

theorem releaseStep_fields (env : Env) (ts : Int) (st : ChainState)
    (lb : LockedEntry) :
    (releaseStep env ts st lb).mempool = st.mempool ∧
    (releaseStep env ts st lb).mintedTokens = st.mintedTokens ∧
    (releaseStep env ts st lb).height = st.height ∧
    (releaseStep env ts st lb).lastBlock = st.lastBlock ∧
    (releaseStep env ts st lb).usedSignatures = st.usedSignatures ∧
    (releaseStep env ts st lb).lastNonces = st.lastNonces ∧
    (releaseStep env ts st lb).disk = st.disk := by
  unfold releaseStep
  split <;> exact ⟨rfl, rfl, rfl, rfl, rfl, rfl, rfl⟩

theorem releaseFold_fields (env : Env) (ts : Int) :
    ∀ (l : List LockedEntry) (st : ChainState),
      (l.foldl (releaseStep env ts) st).mempool = st.mempool ∧
      (l.foldl (releaseStep env ts) st).mintedTokens = st.mintedTokens ∧
      (l.foldl (releaseStep env ts) st).height = st.height ∧
      (l.foldl (releaseStep env ts) st).lastBlock = st.lastBlock ∧
      (l.foldl (releaseStep env ts) st).usedSignatures = st.usedSignatures ∧
      (l.foldl (releaseStep env ts) st).lastNonces = st.lastNonces ∧
      (l.foldl (releaseStep env ts) st).disk = st.disk
  | [], st => ⟨rfl, rfl, rfl, rfl, rfl, rfl, rfl⟩
  | lb :: rest, st => by
    rw [List.foldl_cons]
    have ih := releaseFold_fields env ts rest (releaseStep env ts st lb)
    have hs := releaseStep_fields env ts st lb
    exact ⟨ih.1.trans hs.1, ih.2.1.trans hs.2.1, ih.2.2.1.trans hs.2.2.1,
      ih.2.2.2.1.trans hs.2.2.2.1, ih.2.2.2.2.1.trans hs.2.2.2.2.1,
      ih.2.2.2.2.2.1.trans hs.2.2.2.2.2.1, ih.2.2.2.2.2.2.trans hs.2.2.2.2.2.2⟩

theorem releaseFold_locked (env : Env) (ts : Int) :
    ∀ (l : List LockedEntry) (st : ChainState),
      (l.foldl (releaseStep env ts) st).lockedBalances =
        st.lockedBalances.filter
          (fun x => ! l.any (fun lb => decide (lb.unlock ≤ ts) && decide (x = lb)))
  | [], st => by simp
  | lb :: rest, st => by
    rw [List.foldl_cons, releaseFold_locked env ts rest]
    by_cases hm : lb.unlock ≤ ts
    · have hstep : (releaseStep env ts st lb).lockedBalances =
          st.lockedBalances.filter (fun l' => decide ¬(l' = lb)) := by
        unfold releaseStep
        rw [if_pos hm]
      rw [hstep, List.filter_filter]
      apply List.filter_congr
      intro x _
      simp [hm, Bool.and_comm]
    · have hstep : releaseStep env ts st lb = st := by
        unfold releaseStep
        rw [if_neg hm]
      rw [hstep]
      apply List.filter_congr
      intro x _
      simp [hm]

theorem releaseMatured_locked (env : Env) (st : ChainState) (ts : Int) :
    (releaseMatured env st ts).lockedBalances =
      st.lockedBalances.filter (fun lb => decide (ts < lb.unlock)) := by
  unfold releaseMatured
  rw [releaseFold_locked]
  apply List.filter_congr
  intro x hx
  by_cases hm : x.unlock ≤ ts
  · simp [not_lt.mpr hm]
    exact ⟨hx, hm⟩
  · simp [lt_of_not_le hm]
    intro y hy hle heq
    exact hm (heq.symm ▸ hle)

theorem releaseMatured_id (env : Env) (ts : Int) :
    ∀ (l : List LockedEntry) (st : ChainState),
      (∀ lb ∈ l, ts < lb.unlock) → l.foldl (releaseStep env ts) st = st
  | [], st, _ => rfl
  | lb :: rest, st, h => by
    rw [List.foldl_cons]
    have hstep : releaseStep env ts st lb = st := by
      unfold releaseStep
      rw [if_neg (not_le.mpr (h lb (List.mem_cons_self lb rest)))]
    rw [hstep]
    exact releaseMatured_id env ts rest st
      (fun x hxm => h x (List.mem_cons_of_mem lb hxm))

/-- Claim C1 (amended): when `addBlock` returns `false` the mempool, mint
registry, height, last block, used-signature cache, nonce map and block
store are unchanged, but `lockedBalances` and `balances` have already
absorbed the unconditional release of every matured lock
(`unlock ≤ block.timestamp`), which runs before `checkBlock`; when no lock
has matured the state is entirely unchanged. -/
theorem c1_amended (env : Env) (st : ChainState) (block : Block)
    (ibc skip : Bool) (st' : ChainState)
    (h : addBlock env st block ibc skip = (false, st')) :
    st'.mempool = st.mempool ∧ st'.mintedTokens = st.mintedTokens ∧
    st'.height = st.height ∧ st'.lastBlock = st.lastBlock ∧
    st'.usedSignatures = st.usedSignatures ∧
    st'.lastNonces = st.lastNonces ∧ st'.disk = st.disk ∧
    st'.lockedBalances =
      st.lockedBalances.filter (fun lb => decide (block.timestamp < lb.unlock)) ∧
    ((∀ lb ∈ st.lockedBalances, block.timestamp < lb.unlock) → st' = st) := by
  have hst' : st' = releaseMatured env st block.timestamp := by
    have h' : (if checkBlock env (releaseMatured env st block.timestamp) block
          ibc skip = true
        then (true, applyBlock env (releaseMatured env st block.timestamp) block)
        else (false, releaseMatured env st block.timestamp)) = (false, st') := h
    split at h'
    · simp at h'
    · injection h' with h1 h2
      exact h2.symm
  subst hst'
  have hf := releaseFold_fields env block.timestamp st.lockedBalances st
  refine ⟨hf.1, hf.2.1, hf.2.2.1, hf.2.2.2.1, hf.2.2.2.2.1, hf.2.2.2.2.2.1,
    hf.2.2.2.2.2.2, releaseMatured_locked env st block.timestamp, ?_⟩
  intro hnone
  exact releaseMatured_id env block.timestamp st.lockedBalances st hnone

/-- Claim C1 witness: the amended theorem applied to the concrete rejected
block `blkC1` over `stC1` (whose single lock matures). -/
theorem c1_witness :
    (addBlock env0 stC1 blkC1 false false).2.mempool = stC1.mempool ∧
    (addBlock env0 stC1 blkC1 false false).2.mintedTokens = stC1.mintedTokens ∧
    (addBlock env0 stC1 blkC1 false false).2.height = stC1.height ∧
    (addBlock env0 stC1 blkC1 false false).2.lastBlock = stC1.lastBlock ∧
    (addBlock env0 stC1 blkC1 false false).2.usedSignatures =
      stC1.usedSignatures ∧
    (addBlock env0 stC1 blkC1 false false).2.lastNonces = stC1.lastNonces ∧
    (addBlock env0 stC1 blkC1 false false).2.disk = stC1.disk ∧
    (addBlock env0 stC1 blkC1 false false).2.lockedBalances =
      stC1.lockedBalances.filter
        (fun lb => decide (blkC1.timestamp < lb.unlock)) ∧
    ((∀ lb ∈ stC1.lockedBalances, blkC1.timestamp < lb.unlock) →
      (addBlock env0 stC1 blkC1 false false).2 = stC1) :=
  c1_amended env0 stC1 blkC1 false false
    (addBlock env0 stC1 blkC1 false false).2 (by decide)

theorem applyTx_fields (env : Env) (ts : Int) (st : ChainState)
    (tx : Transaction) :
    (applyTx env ts st tx).mempool = st.mempool ∧
    (applyTx env ts st tx).height = st.height ∧
    (applyTx env ts st tx).lastBlock = st.lastBlock ∧
    (applyTx env ts st tx).usedSignatures = st.usedSignatures ∧
    (applyTx env ts st tx).lastNonces = st.lastNonces ∧
    (applyTx env ts st tx).disk = st.disk := by
  unfold applyTx
  cases tx.mint <;> dsimp only <;>
    [skip; split] <;> (try split) <;> exact ⟨rfl, rfl, rfl, rfl, rfl, rfl⟩

theorem applyFold_fields (env : Env) (ts : Int) :
    ∀ (txs : List Transaction) (st : ChainState),
      (txs.foldl (applyTx env ts) st).mempool = st.mempool ∧
      (txs.foldl (applyTx env ts) st).height = st.height ∧
      (txs.foldl (applyTx env ts) st).lastBlock = st.lastBlock ∧
      (txs.foldl (applyTx env ts) st).usedSignatures = st.usedSignatures ∧
      (txs.foldl (applyTx env ts) st).lastNonces = st.lastNonces ∧
      (txs.foldl (applyTx env ts) st).disk = st.disk
  | [], st => ⟨rfl, rfl, rfl, rfl, rfl, rfl⟩
  | tx :: rest, st => by
    rw [List.foldl_cons]
    have ih := applyFold_fields env ts rest (applyTx env ts st tx)
    have hs := applyTx_fields env ts st tx
    exact ⟨ih.1.trans hs.1, ih.2.1.trans hs.2.1, ih.2.2.1.trans hs.2.2.1,
      ih.2.2.2.1.trans hs.2.2.2.1, ih.2.2.2.2.1.trans hs.2.2.2.2.1,
      ih.2.2.2.2.2.trans hs.2.2.2.2.2⟩

theorem applyBlock_used (env : Env) (st : ChainState) (block : Block) :
    (applyBlock env st block).usedSignatures =
      (if MAX_USED_SIGNATURES <
          (st.usedSignatures ++
            block.transactions.map Transaction.signature).length then
        (st.usedSignatures ++ block.transactions.map Transaction.signature).drop
          ((st.usedSignatures ++
            block.transactions.map Transaction.signature).length -
            MAX_USED_SIGNATURES)
      else st.usedSignatures ++ block.transactions.map Transaction.signature) := by
  unfold applyBlock
  dsimp only
  rw [(applyFold_fields env block.timestamp block.transactions st).2.2.2.1]

theorem releaseMatured_fields (env : Env) (st : ChainState) (ts : Int) :
    (releaseMatured env st ts).mempool = st.mempool ∧
    (releaseMatured env st ts).mintedTokens = st.mintedTokens ∧
    (releaseMatured env st ts).height = st.height ∧
    (releaseMatured env st ts).lastBlock = st.lastBlock ∧
    (releaseMatured env st ts).usedSignatures = st.usedSignatures ∧
    (releaseMatured env st ts).lastNonces = st.lastNonces ∧
    (releaseMatured env st ts).disk = st.disk :=
  releaseFold_fields env ts st.lockedBalances st

theorem addBlock_true_elim (env : Env) (st : ChainState) (block : Block)
    (ibc skip : Bool) (st' : ChainState)
    (h : addBlock env st block ibc skip = (true, st')) :
    checkBlock env (releaseMatured env st block.timestamp) block ibc skip =
      true ∧
    st' = applyBlock env (releaseMatured env st block.timestamp) block := by
  have h' : (if checkBlock env (releaseMatured env st block.timestamp) block
        ibc skip = true
      then (true, applyBlock env (releaseMatured env st block.timestamp) block)
      else (false, releaseMatured env st block.timestamp)) = (true, st') := h
  split at h'
  · injection h' with h1 h2
    exact ⟨by assumption, h2.symm⟩
  · simp at h'

theorem checkTX_sig_not_used (env : Env) (st : ChainState) (tx : Transaction)
    (imb ibv : Bool) (h : checkTX env st tx imb ibv = true)
    (hs1 : tx.sender ≠ "network") (hs2 : tx.sender ≠ "mint")
    (hm : tx.mint = none) : tx.signature ∉ st.usedSignatures := by
  unfold checkTX at h
  rw [hm] at h
  dsimp only at h
  simp only [guardChain] at h
  obtain ⟨-, -, h⟩ := h
  rw [if_neg (show ¬(tx.sender = "mint" ∧ tx.signature = "mint" ∧
      optStrTruthy tx.token = true) from fun hc => hs2 hc.1)] at h
  rw [if_pos ⟨hs1, hs2⟩] at h
  unfold checkTXnormal at h
  simp only [guardChain] at h
  exact h.2.2.2.1

/-- Claim C5 (amended): on a successful `addBlock`, (i) every applied
transaction with a non-reserved sender and no mint payload has a signature
that is not in the retained cache at validation time — reserved-sender
("network"/"mint") and pre-cutoff mint transactions bypass this check and
their signatures can repeat; (ii) afterwards the cache holds at most 10 000
entries; (iii) the new cache is a suffix of the old cache extended by the
block's signatures, i.e. eviction drops oldest-first. -/
theorem c5_amended (env : Env) (st : ChainState) (block : Block)
    (ibc skip : Bool) (st' : ChainState)
    (h : addBlock env st block ibc skip = (true, st')) :
    (∀ tx ∈ block.transactions, tx.sender ≠ "network" → tx.sender ≠ "mint" →
      tx.mint = none → tx.signature ∉ st.usedSignatures) ∧
    st'.usedSignatures.length ≤ MAX_USED_SIGNATURES ∧
    (∃ k, st'.usedSignatures =
      (st.usedSignatures ++ block.transactions.map Transaction.signature).drop
        k) := by
  obtain ⟨hcb, hst'⟩ := addBlock_true_elim env st block ibc skip st' h
  have hused1 : (releaseMatured env st block.timestamp).usedSignatures =
      st.usedSignatures :=
    (releaseMatured_fields env st block.timestamp).2.2.2.2.1
  refine ⟨?_, ?_, ?_⟩
  · intro tx htx hs1 hs2 hmz
    have htxs := (checkBlock_guards env
      (releaseMatured env st block.timestamp) block ibc skip hcb).2.2
    have hchk := (checkBlockTxs_mem env (releaseMatured env st block.timestamp)
      block.transactions htxs tx htx).2
    have := checkTX_sig_not_used env (releaseMatured env st block.timestamp)
      tx false true hchk hs1 hs2 hmz
    rwa [hused1] at this
  · rw [hst', applyBlock_used, hused1]
    split
    · rename_i hover
      rw [List.length_drop]
      omega
    · rename_i hover
      omega
  · rw [hst', applyBlock_used, hused1]
    split
    · exact ⟨_, rfl⟩
    · exact ⟨0, (List.drop_zero _).symm⟩

/-- Claim C5 witness: the amended theorem applied to the concrete successful
`addBlock` of `blkN1` over `stC2`. -/
theorem c5_witness :
    (∀ tx ∈ blkN1.transactions, tx.sender ≠ "network" → tx.sender ≠ "mint" →
      tx.mint = none → tx.signature ∉ stC2.usedSignatures) ∧
    ((addBlock env0 stC2 blkN1 false false).2).usedSignatures.length ≤
      MAX_USED_SIGNATURES ∧
    (∃ k, ((addBlock env0 stC2 blkN1 false false).2).usedSignatures =
      (stC2.usedSignatures ++
        blkN1.transactions.map Transaction.signature).drop k) :=
  c5_amended env0 stC2 blkN1 false false
    (addBlock env0 stC2 blkN1 false false).2 (by decide)

theorem pushTX_cases (env : Env) (st : ChainState) (tx : Transaction) :
    ((pushTX env st tx).1 = true ↔
      (tx.sender ≠ "network" ∧ tx.sender ≠ "mint" ∧
       checkTX env st tx false false = true ∧
       (∀ m, tx.mint = some m → tx.receiver = env.devWallet →
         mapHas st.mintedTokens m.token = false))) ∧
    ((pushTX env st tx).1 = false → (pushTX env st tx).2 = st) := by
  unfold pushTX
  by_cases h1 : tx.sender = "network" ∨ tx.sender = "mint"
  · rw [if_pos h1]
    refine ⟨⟨fun hf => absurd hf (by simp), ?_⟩, fun _ => rfl⟩
    rintro ⟨hn, hm, -, -⟩
    rcases h1 with h | h
    exacts [absurd h hn, absurd h hm]
  · push_neg at h1
    rw [if_neg (not_or.mpr ⟨h1.1, h1.2⟩)]
    by_cases hc : checkTX env st tx false false = true
    · rw [if_pos hc]
      cases hmint : tx.mint with
      | none => simp [h1.1, h1.2, hc, hmint]
      | some m =>
        by_cases hr : tx.receiver = env.devWallet
        · by_cases hh : mapHas st.mintedTokens m.token = true
          · simp [hr, hh, h1.1, h1.2, hc, hmint]
          · by_cases ha : (0 : Int) < m.airdrop
            · simp [hr, hh, ha, h1.1, h1.2, hc, hmint]
            · simp [hr, hh, ha, h1.1, h1.2, hc, hmint]
        · simp [hr, h1.1, h1.2, hc, hmint]
    · rw [if_neg hc]
      refine ⟨⟨fun hf => absurd hf (by simp), ?_⟩, fun _ => rfl⟩
      rintro ⟨-, -, hch, -⟩
      exact absurd hch hc

theorem incomingTX_cases (env : Env) (st : ChainState) (tx : Transaction) :
    ((incomingTX env st tx).1 = true ↔
      (env.now - tx.timestamp ≤ 60000 ∧ -5000 ≤ env.now - tx.timestamp ∧
       (∀ p ∈ st.mempool,
         ¬(tx.sender = p.sender ∧ p.signature = tx.signature)) ∧
       (pushTX env st tx).1 = true)) ∧
    ((incomingTX env st tx).1 = false → (incomingTX env st tx).2 = st) := by
  unfold incomingTX
  by_cases hage : 60000 < env.now - tx.timestamp ∨ env.now - tx.timestamp < -5000
  · rw [if_pos hage]
    refine ⟨⟨fun hf => absurd hf (by simp), ?_⟩, fun _ => rfl⟩
    rintro ⟨ha1, ha2, -, -⟩
    rcases hage with h | h
    exacts [absurd ha1 (not_le.mpr h), absurd ha2 (not_le.mpr h)]
  · rw [if_neg hage]
    push_neg at hage
    by_cases hdup : st.mempool.any
        (fun p => tx.sender = p.sender ∧ p.signature = tx.signature) = true
    · rw [if_pos hdup]
      refine ⟨⟨fun hf => absurd hf (by simp), ?_⟩, fun _ => rfl⟩
      rintro ⟨-, -, hnone, -⟩
      obtain ⟨p, hp, hcond⟩ := List.any_eq_true.mp hdup
      exact absurd (of_decide_eq_true hcond) (hnone p hp)
    · rw [if_neg hdup]
      have hnodup : ∀ p ∈ st.mempool,
          ¬(tx.sender = p.sender ∧ p.signature = tx.signature) := by
        intro p hp hcond
        exact hdup (List.any_eq_true.mpr ⟨p, hp, decide_eq_true hcond⟩)
      constructor
      · constructor
        · intro hacc
          exact ⟨hage.1, hage.2, hnodup, hacc⟩
        · rintro ⟨-, -, -, hacc⟩
          exact hacc
      · exact (pushTX_cases env st tx).2

/-- Claim C6 (amended): mempool admission through `incomingTX` accepts iff
the transaction is at most 60 s old and at most 5 s in the future, no
pending transaction matches it on *both* sender and signature, the sender is
not reserved, `checkTX` approves, and a mint of an already-minted token is
refused; per-sender uniqueness alone is not enforced (and `pushTX` enforces
no pending-transaction guard at all); every rejected admission leaves the
mempool unchanged. -/
theorem c6_amended (env : Env) (st : ChainState) (tx : Transaction) :
    ((incomingTX env st tx).1 = true ↔
      (env.now - tx.timestamp ≤ 60000 ∧ -5000 ≤ env.now - tx.timestamp ∧
       (∀ p ∈ st.mempool,
         ¬(tx.sender = p.sender ∧ p.signature = tx.signature)) ∧
       tx.sender ≠ "network" ∧ tx.sender ≠ "mint" ∧
       checkTX env st tx false false = true ∧
       (∀ m, tx.mint = some m → tx.receiver = env.devWallet →
         mapHas st.mintedTokens m.token = false))) ∧
    ((incomingTX env st tx).1 = false → (incomingTX env st tx).2 = st) ∧
    ((pushTX env st tx).1 = false → (pushTX env st tx).2 = st) := by
  obtain ⟨hi, hirej⟩ := incomingTX_cases env st tx
  obtain ⟨hp, hprej⟩ := pushTX_cases env st tx
  refine ⟨?_, hirej, hprej⟩
  rw [hi, hp]

/-- Claim C6 witness: the amended characterization applied to the concrete
admission of `txC6` over `stC6`. -/
theorem c6_witness :
    ((incomingTX env0 stC6 txC6).1 = true ↔
      (env0.now - txC6.timestamp ≤ 60000 ∧
       -5000 ≤ env0.now - txC6.timestamp ∧
       (∀ p ∈ stC6.mempool,
         ¬(txC6.sender = p.sender ∧ p.signature = txC6.signature)) ∧
       txC6.sender ≠ "network" ∧ txC6.sender ≠ "mint" ∧
       checkTX env0 stC6 txC6 false false = true ∧
       (∀ m, txC6.mint = some m → txC6.receiver = env0.devWallet →
         mapHas stC6.mintedTokens m.token = false))) ∧
    ((incomingTX env0 stC6 txC6).1 = false →
      (incomingTX env0 stC6 txC6).2 = stC6) ∧
    ((pushTX env0 stC6 txC6).1 = false → (pushTX env0 stC6 txC6).2 = stC6) :=
  c6_amended env0 stC6 txC6

theorem mintSenderScan_surgery (env : Env) (v : Transaction → Bool)
    (st : ChainState) (L : List (String × Int)) (U : List String)
    (tx : Transaction) :
    ∀ l, mintSenderScan { env with verifyTxSig := v }
        { st with lastNonces := L, usedSignatures := U } tx l =
      mintSenderScan env st tx l
  | [] => rfl
  | p :: rest => by
    unfold mintSenderScan
    cases p.mint with
    | none => exact mintSenderScan_surgery env v st L U tx rest
    | some pm =>
      dsimp only
      rw [mintSenderScan_surgery env v st L U tx rest]

/-- Claim C10: for a transaction carrying a mint payload, when its timestamp
is at most 1754043286413 the result of `checkTX` is independent of the
signature verifier, the nonce map and the spent-signature cache (no
signature, nonce or duplicate-signature validation is performed); when the
timestamp exceeds the cutoff and the transaction is not routed to the
airdrop branch, acceptance implies the signature verified, the stringified
nonce was not in the nonce map, and the signature was not in the spent
cache. -/
theorem c10_mint_timestamp_gate (env : Env) (v : Transaction → Bool)
    (st : ChainState) (L : List (String × Int)) (U : List String)
    (tx : Transaction) (m : Mint) (imb ibv : Bool)
    (hm : tx.mint = some m) :
    (tx.timestamp ≤ mintSigCutoff →
      checkTX { env with verifyTxSig := v }
        { st with lastNonces := L, usedSignatures := U } tx imb ibv =
      checkTX env st tx imb ibv) ∧
    (mintSigCutoff < tx.timestamp →
      ¬(tx.sender = "mint" ∧ tx.signature = "mint" ∧
        optStrTruthy tx.token = true) →
      checkTX env st tx imb ibv = true →
        env.verifyTxSig tx = true ∧
        mapHas st.lastNonces (toString tx.nonce) = false ∧
        tx.signature ∉ st.usedSignatures) := by
  constructor
  · intro ht
    unfold checkTX checkTXmintSender checkTXmint checkTXmintRest
      mintTokenTaken calculateBalance
    rw [hm]
    dsimp only
    simp only [Bool.false_eq_true, if_false]
    rw [if_neg (not_lt.mpr ht), if_neg (not_lt.mpr ht)]
    rw [mintSenderScan_surgery]
  · intro ht hns h
    unfold checkTX at h
    rw [hm] at h
    dsimp only at h
    simp only [guardChain] at h
    obtain ⟨-, -, h⟩ := h
    rw [if_neg hns] at h
    unfold checkTXmint at h
    simp only [guardChain] at h
    obtain ⟨-, h⟩ := h
    rw [if_pos ht] at h
    simp only [guardChain] at h
    obtain ⟨h1, h2, h3, -⟩ := h
    refine ⟨by simpa using h2, by simpa using h1, h3⟩

/-- Claim C10 witness: the gate theorem applied to the concrete pre-cutoff
minting transaction `txOldMint` over `stC10`, with the verifier that rejects
everything and an emptied nonce map and cache on the surgery side. -/
theorem c10_witness :
    (txOldMint.timestamp ≤ mintSigCutoff →
      checkTX { env0 with verifyTxSig := fun _ => false }
        { stC10 with lastNonces := [], usedSignatures := [] } txOldMint
        false false =
      checkTX env0 stC10 txOldMint false false) ∧
    (mintSigCutoff < txOldMint.timestamp →
      ¬(txOldMint.sender = "mint" ∧ txOldMint.signature = "mint" ∧
        optStrTruthy txOldMint.token = true) →
      checkTX env0 stC10 txOldMint false false = true →
        env0.verifyTxSig txOldMint = true ∧
        mapHas stC10.lastNonces (toString txOldMint.nonce) = false ∧
        txOldMint.signature ∉ stC10.usedSignatures) :=
  c10_mint_timestamp_gate env0 (fun _ => false) stC10 [] [] txOldMint
    ⟨"QUU", 2, some 4⟩ false false rfl
